import Mathlib

/-!
# Scope.js: lexical, function and block scope, and the global gotcha

`Scope.js` is one non-strict script made of annotated snippets about where a
declared name is available (it assigns to undeclared names on lines 86 and
96).  Its statements are embedded here as state-passing computations over an
explicit scope chain, built from the primitives `getValue`, `putValue`,
`declareLexical`, `declareVar`, `hoistFunction`, `block` and `callFunction`.

The script is run the way an engine runs it: the top-level function
declarations are bound first (`hoistDeclarations`), a later declaration of a
name replacing an earlier one, and then the statements run in source order.
The three declarations of `myFunc` (lines 10, 28 and 39) are three functions
here, and the one of line 39 is the one bound when line 16 runs.

Statements about a single snippet are made over every state that meets the
conditions the snippet is read under (which function a name resolves to,
which names are declared nowhere in scope).
-/

namespace ScopeJs

/-! ## Data model -/

/-- Function declarations of Scope.js embedded here, named by the line that
opens them.  All of them are top-level declarations, so each closes over the
global scope only. -/
inductive FnId
  | myFunc10
  | myFunc28
  | myFunc39
  | bankAccount
  deriving DecidableEq, Repr

/-- Values that occur in the snippets.  Numbers are the integers that a double
represents exactly; `nan` is the result of arithmetic on `undefined`. -/
inductive Value
  | undefined
  | bool (b : Bool)
  | nan
  | num (n : Int)
  | str (s : String)
  | fn (f : FnId)
  deriving DecidableEq, Repr

/-- How a binding came to exist.  `implicit` is the property created on the
global object by assigning to a name that does not resolve. -/
inductive DeclKind
  | const
  | let
  | var
  | function
  | implicit
  deriving DecidableEq, Repr

/-- One name bound in a scope. -/
structure Binding where
  name : String
  kind : DeclKind
  value : Value
  deriving DecidableEq, Repr

/-- The two kinds of scope that sit above the global one. -/
inductive ScopeKind
  | function
  | block
  deriving DecidableEq, Repr

/-- One scope of the chain: its kind and the names it binds. -/
structure ScopeRec where
  kind : ScopeKind
  bindings : List Binding
  deriving DecidableEq, Repr

/-- Execution state: the scopes entered and not yet left (innermost first),
the global scope below them, and what `console.log` has printed so far. -/
structure ExecState where
  chain : List ScopeRec
  globals : List Binding
  console : List Value
  deriving DecidableEq, Repr

/-- Ways in which evaluation stops without a value. -/
inductive JSError
  | referenceError (name : String)
  | constAssign (name : String)
  | redeclared (name : String)
  | notCallable (name : String)
  | unmodelled
  deriving DecidableEq, Repr

/-- The text the engine reports for an error. -/
def JSError.describe : JSError → String
  | .referenceError x => "ReferenceError: " ++ x ++ " is not defined"
  | .constAssign _ => "TypeError: Assignment to constant variable."
  | .redeclared x =>
      "SyntaxError: Identifier " ++ String.singleton (Char.ofNat 39) ++ x
        ++ String.singleton (Char.ofNat 39) ++ " has already been declared"
  | .notCallable x => "TypeError: " ++ x ++ " is not a function"
  | .unmodelled => "outside the modelled fragment"

/-- A computation that reads and updates the execution state and either
returns a value or throws. -/
def JS (α : Type) : Type := ExecState → Except JSError (α × ExecState)

/-- Return a value, leaving the state alone. -/
def JS.pure {α : Type} (a : α) : JS α := fun s => .ok (a, s)

/-- Sequence two computations; an error in the first skips the second. -/
def JS.bind {α β : Type} (m : JS α) (f : α → JS β) : JS β := fun s =>
  match m s with
  | .ok (a, s1) => f a s1
  | .error e => .error e

instance : Monad JS where
  pure := JS.pure
  bind := JS.bind

/-- Throw. -/
def throwJS {α : Type} (e : JSError) : JS α := fun _ => .error e

/-! ## Scope primitives -/

/-- First binding of `x` in one scope. -/
def findBinding (x : String) : List Binding → Option Binding
  | [] => none
  | b :: bs => if b.name = x then some b else findBinding x bs

/-- Resolve `x` along the non-global part of the chain, innermost scope first. -/
def lookupChain (x : String) : List ScopeRec → Option Binding
  | [] => none
  | sc :: rest =>
    match findBinding x sc.bindings with
    | some b => some b
    | none => lookupChain x rest

/-- Resolve `x` along the whole chain, the global scope last. -/
def resolve (x : String) (s : ExecState) : Option Binding :=
  match lookupChain x s.chain with
  | some b => some b
  | none => findBinding x s.globals

/-- Read an identifier.  A name that resolves nowhere is a ReferenceError. -/
def getValue (x : String) : JS Value := fun s =>
  match resolve x s with
  | some b => .ok (b.value, s)
  | none => .error (.referenceError x)

/-- Replace the value of the first binding of `x` in one scope. -/
def updateBinding (x : String) (v : Value) : List Binding → List Binding
  | [] => []
  | b :: bs =>
    if b.name = x then ⟨b.name, b.kind, v⟩ :: bs else b :: updateBinding x v bs

/-- Replace the value of `x` in the innermost scope of the chain that binds it. -/
def updateChain (x : String) (v : Value) : List ScopeRec → List ScopeRec
  | [] => []
  | sc :: rest =>
    match findBinding x sc.bindings with
    | some _ => ⟨sc.kind, updateBinding x v sc.bindings⟩ :: rest
    | none => sc :: updateChain x v rest

/-- Assign to an identifier, `x = v`.  The name is resolved along the chain;
a `const` binding rejects the assignment; a name that resolves nowhere becomes
a new property of the global object (non-strict code). -/
def putValue (x : String) (v : Value) : JS Unit := fun s =>
  match lookupChain x s.chain with
  | some b =>
    if b.kind = .const then .error (.constAssign x)
    else .ok ((), ⟨updateChain x v s.chain, s.globals, s.console⟩)
  | none =>
    match findBinding x s.globals with
    | some b =>
      if b.kind = .const then .error (.constAssign x)
      else .ok ((), ⟨s.chain, updateBinding x v s.globals, s.console⟩)
    | none => .ok ((), ⟨s.chain, s.globals ++ [⟨x, .implicit, v⟩], s.console⟩)

/-- Put `b` in the place of the first binding of the same name in one scope. -/
def replaceBinding (b : Binding) : List Binding → List Binding
  | [] => []
  | c :: cs => if c.name = b.name then b :: cs else c :: replaceBinding b cs

/-- Declare `x` with `const` or `let` (given as `k`) in the innermost scope.
Declaring a name twice in one scope is rejected; at top level a property that
an undeclared assignment left on the global object does not count as a
declaration, and the new binding takes its place for every later read and
assignment. -/
def declareLexical (k : DeclKind) (x : String) (v : Value) : JS Unit := fun s =>
  match s.chain with
  | [] =>
    match findBinding x s.globals with
    | some b =>
      if b.kind = .implicit then
        .ok ((), ⟨[], replaceBinding ⟨x, k, v⟩ s.globals, s.console⟩)
      else .error (.redeclared x)
    | none => .ok ((), ⟨[], s.globals ++ [⟨x, k, v⟩], s.console⟩)
  | sc :: rest =>
    match findBinding x sc.bindings with
    | some _ => .error (.redeclared x)
    | none => .ok ((), ⟨⟨sc.kind, sc.bindings ++ [⟨x, k, v⟩]⟩ :: rest, s.globals, s.console⟩)

/-- Put a `var` or `function` binding into one scope: a `const` or `let` of the
same name rejects it, an older `var`, `function` or implicit binding is
overwritten. -/
def declareIn (k : DeclKind) (x : String) (v : Value) (bs : List Binding) :
    Except JSError (List Binding) :=
  match findBinding x bs with
  | some b =>
    if b.kind = .const ∨ b.kind = .let then .error (.redeclared x)
    else .ok (updateBinding x v bs)
  | none => .ok (bs ++ [⟨x, k, v⟩])

/-- Put a `var` binding into the nearest function scope of the chain, skipping
the block scopes on the way; `none` when the chain has no function scope. -/
def declareVarChain (x : String) (v : Value) :
    List ScopeRec → Option (Except JSError (List ScopeRec))
  | [] => none
  | sc :: rest =>
    match sc.kind with
    | .function =>
      match declareIn .var x v sc.bindings with
      | .ok bs => some (.ok (⟨sc.kind, bs⟩ :: rest))
      | .error e => some (.error e)
    | .block =>
      match findBinding x sc.bindings with
      | some _ => some (.error (.redeclared x))
      | none =>
        match declareVarChain x v rest with
        | some (.ok rest1) => some (.ok (sc :: rest1))
        | some (.error e) => some (.error e)
        | none => none

/-- Declare with `var`: the binding belongs to the nearest enclosing function,
or to the global scope when there is none; blocks do not hold it. -/
def declareVar (x : String) (v : Value) : JS Unit := fun s =>
  match declareVarChain x v s.chain with
  | some (.ok ch) => .ok ((), ⟨ch, s.globals, s.console⟩)
  | some (.error e) => .error e
  | none =>
    match declareIn .var x v s.globals with
    | .ok g => .ok ((), ⟨s.chain, g, s.console⟩)
    | .error e => .error e

/-- Bind the top-level function declaration `function x() ...`.  This happens
when the script is set up, before its first statement runs, and not when
control reaches the line of the declaration. -/
def hoistFunction (x : String) (f : FnId) : JS Unit := fun s =>
  match declareIn .function x (.fn f) s.globals with
  | .ok g => .ok ((), ⟨s.chain, g, s.console⟩)
  | .error e => .error e

/-- Run the body of a block statement in a fresh block scope and leave the
scope afterwards. -/
def block {α : Type} (body : JS α) : JS α := fun s =>
  match body ⟨⟨.block, []⟩ :: s.chain, s.globals, s.console⟩ with
  | .ok (a, s1) => .ok (a, ⟨s1.chain.tail, s1.globals, s1.console⟩)
  | .error e => .error e

/-- Truthiness of a value. -/
def toBoolean : Value → Bool
  | .undefined => false
  | .bool b => b
  | .nan => false
  | .num n => n ≠ 0
  | .str s => s ≠ ""
  | .fn _ => true

/-- An `if` statement without `else` whose consequent is a block. -/
def ifThen (cond : Value) (body : JS Unit) : JS Unit :=
  if toBoolean cond then block body else JS.pure ()

/-- `console.log(v)`. -/
def consoleLog (v : Value) : JS Unit := fun s =>
  .ok ((), ⟨s.chain, s.globals, s.console ++ [v]⟩)

/-- Conversion to a number, for the operand types the snippets multiply;
`none` for strings, whose conversion is not modelled. -/
def toNumber : Value → Option Value
  | .undefined => some .nan
  | .bool b => some (.num (if b then 1 else 0))
  | .nan => some .nan
  | .num n => some (.num n)
  | .str _ => none
  | .fn _ => some .nan

/-- Largest magnitude up to which integer arithmetic on doubles is exact. -/
def maxSafeInteger : Nat := 2 ^ 53 - 1

/-- The `*` operator on two evaluated operands. -/
def times (a b : Value) : JS Value :=
  match toNumber a, toNumber b with
  | some (.num x), some (.num y) =>
    if (x * y).natAbs ≤ maxSafeInteger then JS.pure (.num (x * y)) else throwJS .unmodelled
  | some _, some _ => JS.pure .nan
  | _, _ => throwJS .unmodelled

/-! ## Function bodies and calls -/

/-- The expression `myVar * 2` of lines 31 and 44: the left operand is read
first, so an unresolvable `myVar` throws before anything is multiplied. -/
def myVarTimesTwo : JS Value := do
  let a ← getValue "myVar"
  times a (.num 2)

/-- Bodies of the embedded function declarations; the value returned is the
value of the call (`undefined` when the body has no `return`). -/
def fnBody : FnId → JS Value
  | .myFunc10 => JS.pure (.num 42)
  | .myFunc28 => do
    declareLexical .const "myVar" (.num 42)
    myVarTimesTwo
  | .myFunc39 => do
    declareLexical .const "myVar" (.num 42)
    pure .undefined
  | .bankAccount => do
    putValue "secretPassword" (.str "il0v3pupp135")
    pure (.str "bankAccount() function invoked!")

/-- Call a top-level function: its body runs in a fresh function scope placed
directly on the global scope (the scope the function was declared in), and the
scopes of the caller are back in place when it returns. -/
def callFunction (f : FnId) : JS Value := fun s =>
  match fnBody f ⟨[⟨.function, []⟩], s.globals, s.console⟩ with
  | .ok (v, s1) => .ok (v, ⟨s.chain, s1.globals, s1.console⟩)
  | .error e => .error e

/-- The call expression `x()`. -/
def callName (x : String) : JS Value := do
  let f ← getValue x
  match f with
  | .fn id => callFunction id
  | _ => throwJS (.notCallable x)

/-- Run a statement `n` times in a row. -/
def runTimes (n : Nat) (stmt : JS Value) : JS Unit :=
  match n with
  | 0 => JS.pure ()
  | k + 1 => do
    let _ ← stmt
    runTimes k stmt

/-! ## The script -/

/-- What is bound before the first statement of Scope.js runs: the top-level
function declarations in source order (lines 10, 28, 39 and 95), so that
`myFunc` ends up as the function of line 39, and the `var` of line 50, which
starts as `undefined`.  The functions declared on lines 120 to 169
(`firstFunc`, `first`, `second`) are bound at this point as well; no embedded
statement names them and they are left out.  The `const` of line 16 is added
when line 16 runs; nothing reads `myVar` from the global scope before that. -/
def hoistDeclarations : JS Unit := do
  hoistFunction "myFunc" .myFunc10
  hoistFunction "myFunc" .myFunc28
  hoistFunction "myFunc" .myFunc39
  hoistFunction "bankAccount" .bankAccount
  declareVar "myVar2" .undefined

/-- Lines 16 to 21: `const myVar = myFunc() * 2;`, the expression statement
`myVar;` and `console.log(myVar)`.  The value is that of the expression
statement on line 19. -/
def globalContextStatements : JS Value := do
  let r ← callName "myFunc"
  let p ← times r (.num 2)
  declareLexical .const "myVar" p
  let v ← getValue "myVar"
  let w ← getValue "myVar"
  consoleLog w
  pure v

/-- Line 35, `console.log(myFunc())`. -/
def functionScopeStatement : JS Unit := do
  let r ← callName "myFunc"
  consoleLog r

/-- Lines 49 to 54, a `var` inside a block. -/
def varBlockSnippet : JS Unit := do
  ifThen (.bool true) (declareVar "myVar2" (.num 42))
  let v ← getValue "myVar2"
  consoleLog v

/-- Lines 57 to 61, the block that declares with `const` and `let`. -/
def lexicalBlock : JS Unit :=
  ifThen (.bool true) (do
    declareLexical .const "myVar" (.num 42)
    declareLexical .let "myOtherVar" (.num 9001))

/-- Lines 63 and 64 (with `x` as `myVar`), 67 and 68 (with `x` as
`myOtherVar`), 89 and 90 (with `x` as `lastName`): the expression statement
`x;` followed by `console.log(x)`.  The value is that of the expression
statement. -/
def readAndLog (x : String) : JS Value := do
  let v ← getValue x
  let w ← getValue x
  consoleLog w
  pure v

/-- Lines 57 to 64. -/
def blockScopeSnippet : JS Value := do
  lexicalBlock
  readAndLog "myVar"

/-- Lines 57 to 61 followed by lines 67 and 68. -/
def blockScopeOtherSnippet : JS Value := do
  lexicalBlock
  readAndLog "myOtherVar"

/-- Lines 85 to 87, the block that assigns to an undeclared name. -/
def gotchaBlock : JS Unit :=
  ifThen (.bool true) (putValue "lastName" (.str "Lovelace"))

/-- Lines 85 to 90. -/
def gotchaBlockSnippet : JS Value := do
  gotchaBlock
  readAndLog "lastName"

/-- Lines 101 to 104: the call `bankAccount();` and the read
`secretPassword;`.  The pair holds the values of the two expression
statements. -/
def bankAccountStatements : JS (Value × Value) := do
  let r ← callName "bankAccount"
  let p ← getValue "secretPassword"
  pure (r, p)

/-- Scope.js from its start to line 21. -/
def scriptToLine21 : JS Value := do
  hoistDeclarations
  globalContextStatements

/-- Scope.js from its start to line 35. -/
def scriptToLine35 : JS Unit := do
  let _ ← scriptToLine21
  functionScopeStatement

/-- Scope.js from its start to line 64.  The value is that of the expression
statement `myVar;` on line 63. -/
def scriptToLine64 : JS Value := do
  scriptToLine35
  let _ ← myVarTimesTwo
  varBlockSnippet
  lexicalBlock
  readAndLog "myVar"

/-- Scope.js from its start to line 68. -/
def scriptToLine68 : JS Value := do
  let _ ← scriptToLine64
  readAndLog "myOtherVar"

/-- The state in which a script starts: no scope entered, nothing declared,
nothing printed. -/
def initial : ExecState := ⟨[], [], []⟩

/-! ## Lemmas on the scope primitives -/

theorem bind_run {α β : Type} (m : JS α) (f : α → JS β) (s : ExecState) :
    (m >>= f) s = match m s with
      | .ok (a, s1) => f a s1
      | .error e => .error e := rfl

theorem pure_run {α : Type} (a : α) (s : ExecState) : (pure a : JS α) s = .ok (a, s) := rfl

theorem resolve_none {x : String} {s : ExecState} (h : resolve x s = none) :
    lookupChain x s.chain = none ∧ findBinding x s.globals = none := by
  unfold resolve at h
  cases hc : lookupChain x s.chain with
  | none => rw [hc] at h; exact ⟨rfl, h⟩
  | some b => rw [hc] at h; cases h

theorem getValue_unresolved {x : String} {s : ExecState} (h : resolve x s = none) :
    getValue x s = .error (.referenceError x) := by
  simp [getValue, h]

theorem getValue_resolved {x : String} {s : ExecState} {b : Binding}
    (h : resolve x s = some b) : getValue x s = .ok (b.value, s) := by
  simp [getValue, h]

theorem findBinding_append_new {x : String} {bs : List Binding} (k : DeclKind) (v : Value)
    (h : findBinding x bs = none) : findBinding x (bs ++ [⟨x, k, v⟩]) = some ⟨x, k, v⟩ := by
  induction bs with
  | nil => simp [findBinding]
  | cons b bs ih =>
    simp only [findBinding] at h
    by_cases hb : b.name = x
    · simp [hb] at h
    · simp only [hb, if_false] at h
      simp [findBinding, hb, ih h]

theorem findBinding_append_other {x y : String} (bs : List Binding) (k : DeclKind) (v : Value)
    (h : y ≠ x) : findBinding x (bs ++ [⟨y, k, v⟩]) = findBinding x bs := by
  induction bs with
  | nil => simp [findBinding, h]
  | cons b bs ih =>
    by_cases hb : b.name = x
    · simp [findBinding, hb]
    · simp [findBinding, hb, ih]

theorem findBinding_update_same {x : String} {bs : List Binding} {b : Binding} (v : Value)
    (h : findBinding x bs = some b) :
    findBinding x (updateBinding x v bs) = some ⟨b.name, b.kind, v⟩ ∧ b.name = x := by
  induction bs with
  | nil => simp [findBinding] at h
  | cons c bs ih =>
    by_cases hc : c.name = x
    · simp only [findBinding, hc, if_true, Option.some.injEq] at h
      subst h
      simp [findBinding, updateBinding, hc]
    · simp only [findBinding, hc, if_false] at h
      simp [findBinding, updateBinding, hc, ih h]

theorem findBinding_update_other {x y : String} (bs : List Binding) (v : Value) (h : y ≠ x) :
    findBinding x (updateBinding y v bs) = findBinding x bs := by
  induction bs with
  | nil => simp [findBinding, updateBinding]
  | cons c bs ih =>
    by_cases hc : c.name = y
    · have hx : ¬ c.name = x := fun e => h (hc.symm.trans e)
      simp [findBinding, updateBinding, hc, h]
    · by_cases hx : c.name = x
      · have hxy : ¬ x = y := fun e => h e.symm
        simp [findBinding, updateBinding, hx, hxy]
      · simp [findBinding, updateBinding, hc, hx, ih]

/-! ## Lemmas on blocks and calls -/

theorem lexicalBlock_run (s : ExecState) : lexicalBlock s = .ok ((), s) := by
  simp [lexicalBlock, ifThen, toBoolean, block, bind_run, declareLexical, findBinding]

theorem call_myFunc39 (s : ExecState) : callFunction .myFunc39 s = .ok (.undefined, s) := by
  simp [callFunction, fnBody, bind_run, pure_run, declareLexical, findBinding]

theorem callName_myFunc39 {s : ExecState}
    (hf : (resolve "myFunc" s).map Binding.value = some (.fn .myFunc39)) :
    callName "myFunc" s = .ok (.undefined, s) := by
  cases hr : resolve "myFunc" s with
  | none => simp [hr] at hf
  | some b =>
    simp only [hr, Option.map_some', Option.some.injEq] at hf
    simp [callName, bind_run, getValue_resolved hr, hf, call_myFunc39]

theorem runTimes_fixed {stmt : JS Value} {s : ExecState} {v : Value}
    (h : stmt s = .ok (v, s)) (n : Nat) : runTimes n stmt s = .ok ((), s) := by
  induction n with
  | zero => rfl
  | succ k ih => simp [runTimes, bind_run, h, ih]

theorem myVarTimesTwo_unresolved {s : ExecState} (hv : resolve "myVar" s = none) :
    myVarTimesTwo s = .error (.referenceError "myVar") := by
  simp [myVarTimesTwo, bind_run, getValue_unresolved hv]

theorem readAndLog_unresolved {x : String} {s : ExecState} (h : resolve x s = none) :
    readAndLog x s = .error (.referenceError x) := by
  simp [readAndLog, bind_run, getValue_unresolved h]

theorem declareIn_ok {x : String} {g : List Binding} (k : DeclKind) (v : Value)
    (h : ∀ b, findBinding x g = some b → b.kind ≠ .const ∧ b.kind ≠ .let) :
    ∃ g1, declareIn k x v g = .ok g1 ∧
      (findBinding x g1).map Binding.value = some v ∧
      ∀ y, y ≠ x → findBinding y g1 = findBinding y g := by
  cases hg : findBinding x g with
  | none =>
    refine ⟨g ++ [⟨x, k, v⟩], by simp [declareIn, hg], ?_, ?_⟩
    · simp [findBinding_append_new k v hg]
    · intro y hy
      exact findBinding_append_other g k v (fun e => hy e.symm)
  | some b =>
    obtain ⟨h1, h2⟩ := h b hg
    refine ⟨updateBinding x v g, by simp [declareIn, hg, h1, h2], ?_, ?_⟩
    · simp [(findBinding_update_same v hg).1]
    · intro y hy
      exact findBinding_update_other g v (fun e => hy e.symm)

theorem call_myFunc10 (s : ExecState) : callFunction .myFunc10 s = .ok (.num 42, s) := by
  simp [callFunction, fnBody, JS.pure]

theorem call_bankAccount {s : ExecState} (h : findBinding "secretPassword" s.globals = none) :
    callFunction .bankAccount s =
      .ok (.str "bankAccount() function invoked!",
        ⟨s.chain, s.globals ++ [⟨"secretPassword", .implicit, .str "il0v3pupp135"⟩],
          s.console⟩) := by
  simp [callFunction, fnBody, bind_run, pure_run, putValue, lookupChain, findBinding, h]

theorem putValue_unresolved {x : String} {s : ExecState} (v : Value) (h : resolve x s = none) :
    putValue x v s = .ok ((), ⟨s.chain, s.globals ++ [⟨x, .implicit, v⟩], s.console⟩) := by
  obtain ⟨h1, h2⟩ := resolve_none h
  simp [putValue, h1, h2]

theorem getValue_global {x : String} {ch : List ScopeRec} {g : List Binding} {b : Binding}
    (c : List Value) (hc : lookupChain x ch = none) (hg : findBinding x g = some b) :
    getValue x ⟨ch, g, c⟩ = .ok (b.value, ⟨ch, g, c⟩) := by
  simp [getValue, resolve, hc, hg]

theorem readAndLog_global {x : String} {ch : List ScopeRec} {g : List Binding} {b : Binding}
    (c : List Value) (hc : lookupChain x ch = none) (hg : findBinding x g = some b) :
    readAndLog x ⟨ch, g, c⟩ = .ok (b.value, ⟨ch, g, c ++ [b.value]⟩) := by
  simp [readAndLog, bind_run, pure_run, getValue_global c hc hg, consoleLog]

theorem gotchaBlock_run {s : ExecState} (h : resolve "lastName" s = none) :
    gotchaBlock s =
      .ok ((), ⟨s.chain, s.globals ++ [⟨"lastName", .implicit, .str "Lovelace"⟩],
        s.console⟩) := by
  obtain ⟨h1, h2⟩ := resolve_none h
  simp [gotchaBlock, ifThen, toBoolean, block, putValue, lookupChain, findBinding, h1, h2]

/-! ## Single snippets -/

theorem call_myFunc28 (s : ExecState) : callFunction .myFunc28 s = .ok (.num 84, s) := by
  simp [callFunction, fnBody, bind_run, declareLexical, findBinding, myVarTimesTwo, getValue,
    resolve, lookupChain, times, toNumber, maxSafeInteger, JS.pure]

/-- Lines 16 to 21 at top level where `myFunc` is the function of line 10 and
`myVar` is not in the global scope yet: `myVar` becomes the `const` 84, which
is the value of `myVar;` and what `console.log(myVar)` prints. -/
theorem globalContextStatements_with_myFunc10 (g : List Binding) (c : List Value)
    (hf : (findBinding "myFunc" g).map Binding.value = some (.fn .myFunc10))
    (hv : findBinding "myVar" g = none) :
    globalContextStatements ⟨[], g, c⟩ =
      .ok (.num 84, ⟨[], g ++ [⟨"myVar", .const, .num 84⟩], c ++ [.num 84]⟩) := by
  have hnew := findBinding_append_new .const (.num 84) hv
  cases hb : findBinding "myFunc" g with
  | none => simp [hb] at hf
  | some b =>
    simp only [hb, Option.map_some', Option.some.injEq] at hf
    simp [globalContextStatements, bind_run, pure_run, callName, getValue, resolve, lookupChain,
      hb, hf, call_myFunc10, times, toNumber, maxSafeInteger, JS.pure, declareLexical, hv, hnew,
      consoleLog]

/-- Line 35 where `myFunc` is the function of line 28: inside the function
`myVar` is in reach, the call returns 84 and 84 is printed. -/
theorem functionScopeStatement_with_myFunc28 (s : ExecState)
    (hf : (resolve "myFunc" s).map Binding.value = some (.fn .myFunc28)) :
    functionScopeStatement s = .ok ((), ⟨s.chain, s.globals, s.console ++ [.num 84]⟩) := by
  cases hr : resolve "myFunc" s with
  | none => simp [hr] at hf
  | some b =>
    simp only [hr, Option.map_some', Option.some.injEq] at hf
    simp [functionScopeStatement, bind_run, callName, getValue_resolved hr, hf, call_myFunc28,
      consoleLog]

/-- A top-level `const` over a property that an undeclared assignment left on
the global object: the declaration is accepted and its binding is the one
read from then on. -/
theorem declareLexical_over_implicit :
    (declareLexical .const "myVar" (.num 84) >>= fun _ => getValue "myVar")
        ⟨[], [⟨"myVar", .implicit, .num 1⟩], []⟩ =
      .ok (.num 84, ⟨[], [⟨"myVar", .const, .num 84⟩], []⟩) := by rfl

/-- Lines 49 to 54 from a state with nothing declared: the `var` of the block
is bound in the global scope and 42 is printed. -/
theorem varBlockSnippet_initial :
    varBlockSnippet initial = .ok ((), ⟨[], [⟨"myVar2", .var, .num 42⟩], [.num 42]⟩) := by rfl

/-- Inside the block of lines 57 to 61 both names are in reach: a read placed
at the end of the block body yields the declared value. -/
theorem lexicalBlock_inside :
    block (do
      declareLexical .const "myVar" (.num 42)
      declareLexical .let "myOtherVar" (.num 9001)
      let a ← getValue "myVar"
      let b ← getValue "myOtherVar"
      pure (a, b)) initial = .ok ((.num 42, .num 9001), initial) := by rfl

/-- Lines 85 to 90 from a state with nothing declared. -/
theorem gotchaBlockSnippet_initial :
    gotchaBlockSnippet initial =
      .ok (.str "Lovelace", ⟨[], [⟨"lastName", .implicit, .str "Lovelace"⟩],
        [.str "Lovelace"]⟩) := by rfl

/-- Lines 101 to 104 run right after the declarations are bound. -/
theorem bankAccountStatements_after_hoisting :
    (hoistDeclarations >>= fun _ => bankAccountStatements) initial =
      .ok ((.str "bankAccount() function invoked!", .str "il0v3pupp135"),
        ⟨[], [⟨"myFunc", .function, .fn .myFunc39⟩,
          ⟨"bankAccount", .function, .fn .bankAccount⟩,
          ⟨"myVar2", .var, .undefined⟩,
          ⟨"secretPassword", .implicit, .str "il0v3pupp135"⟩], []⟩) := by rfl

/-! ## The script as it runs -/

/-- Once the declarations are bound, `myFunc` is the function of line 39. -/
theorem hoistDeclarations_initial :
    hoistDeclarations initial =
      .ok ((), ⟨[], [⟨"myFunc", .function, .fn .myFunc39⟩,
        ⟨"bankAccount", .function, .fn .bankAccount⟩,
        ⟨"myVar2", .var, .undefined⟩], []⟩) := by rfl

/-- Line 35 in the script: `myFunc()` is a call of the function of line 39 and
`undefined` is printed after the NaN of line 21. -/
theorem scriptToLine35_console :
    ∃ s1, scriptToLine35 initial = .ok ((), s1) ∧ s1.console = [.nan, .undefined] :=
  ⟨_, rfl, rfl⟩

/-- Line 44 in the script: `myVar` resolves to the `const` of line 16, the
product is NaN and nothing is thrown. -/
theorem script_line44_is_nan :
    ∃ s1, scriptToLine35 initial = .ok ((), s1) ∧ myVarTimesTwo s1 = .ok (.nan, s1) :=
  ⟨_, rfl, rfl⟩

/-- Lines 49 to 64 in the script: 42 is printed for `myVar2`, and after the
block `myVar` still resolves to the `const` of line 16, so that line 63 yields
NaN and line 64 prints NaN. -/
theorem scriptToLine64_console :
    ∃ s1, scriptToLine64 initial = .ok (.nan, s1) ∧
      s1.console = [.nan, .undefined, .num 42, .nan] :=
  ⟨_, rfl, rfl⟩

/-- Line 67 in the script: `myOtherVar` is declared nowhere, the read throws,
and the script ends there. -/
theorem script_stops_at_line67 :
    scriptToLine68 initial = .error (.referenceError "myOtherVar") := by rfl

/-! ## The claims, settled -/

/-- C1: in Scope.js as it runs, `myVar` is not 84.  The declarations of
`myFunc` on lines 10, 28 and 39 are all bound before line 16 runs and the last
one, whose body returns nothing, is the one in force: line 16 computes
`undefined * 2`, `myVar` is the `const` NaN, `myVar;` on line 19 yields NaN and
`console.log(myVar)` on line 21 prints NaN. -/
theorem global_context_myVar_is_nan :
    ∃ s0 s1, hoistDeclarations initial = .ok ((), s0) ∧
      (resolve "myFunc" s0).map Binding.value = some (.fn .myFunc39) ∧
      callName "myFunc" s0 = .ok (.undefined, s0) ∧
      globalContextStatements s0 = .ok (.nan, s1) ∧
      scriptToLine21 initial = .ok (.nan, s1) ∧
      resolve "myVar" s1 = some ⟨"myVar", .const, .nan⟩ ∧
      s1.console = [.nan] :=
  ⟨_, _, rfl, rfl, rfl, rfl, rfl, rfl, rfl⟩

/-- C2: wherever the call `bankAccount()` is made, as long as `bankAccount`
resolves to the function declared on line 95 and `secretPassword` is declared
nowhere in scope, the call returns the string "bankAccount() function invoked!"
and leaves `secretPassword` bound in the global scope to "il0v3pupp135", where
the read on line 104 finds it. -/
theorem bankAccount_leaks_password (s : ExecState)
    (hf : (resolve "bankAccount" s).map Binding.value = some (.fn .bankAccount))
    (hp : resolve "secretPassword" s = none) :
    ∃ s1, callName "bankAccount" s = .ok (.str "bankAccount() function invoked!", s1) ∧
      s1.chain = s.chain ∧
      findBinding "secretPassword" s1.globals =
        some ⟨"secretPassword", .implicit, .str "il0v3pupp135"⟩ ∧
      getValue "secretPassword" s1 = .ok (.str "il0v3pupp135", s1) := by
  obtain ⟨h1, h2⟩ := resolve_none hp
  have hnew := findBinding_append_new .implicit (.str "il0v3pupp135") h2
  cases hr : resolve "bankAccount" s with
  | none => simp [hr] at hf
  | some b =>
    simp only [hr, Option.map_some', Option.some.injEq] at hf
    refine ⟨⟨s.chain, s.globals ++ [⟨"secretPassword", .implicit, .str "il0v3pupp135"⟩],
      s.console⟩, ?_, rfl, hnew, ?_⟩
    · simp [callName, bind_run, getValue_resolved hr, hf, call_bankAccount h2]
    · exact getValue_global s.console h1 hnew

/-- Witness for C2: the call made at top level right after the declaration of
line 95. -/
theorem bankAccount_leaks_password_witness :
    ∃ s1, callName "bankAccount" ⟨[], [⟨"bankAccount", .function, .fn .bankAccount⟩], []⟩ =
        .ok (.str "bankAccount() function invoked!", s1) ∧
      s1.chain = [] ∧
      findBinding "secretPassword" s1.globals =
        some ⟨"secretPassword", .implicit, .str "il0v3pupp135"⟩ ∧
      getValue "secretPassword" s1 = .ok (.str "il0v3pupp135", s1) :=
  bankAccount_leaks_password ⟨[], [⟨"bankAccount", .function, .fn .bankAccount⟩], []⟩ rfl rfl

/-- C3: assigning to a name `x` that is declared nowhere in scope creates the
binding in the global scope, however many function and block scopes are
entered at that point, and any code whose own scopes do not declare `x` then
reads the assigned value; in particular, once the block of lines 85 to 87 has
run, `lastName;` evaluates to "Lovelace" and `console.log(lastName)` prints
it. -/
theorem undeclared_assignment_is_global (s : ExecState) (x : String) (v : Value)
    (hx : resolve x s = none) (hl : resolve "lastName" s = none) :
    (putValue x v s = .ok ((), ⟨s.chain, s.globals ++ [⟨x, .implicit, v⟩], s.console⟩) ∧
      findBinding x (s.globals ++ [⟨x, .implicit, v⟩]) = some ⟨x, .implicit, v⟩ ∧
      ∀ (ch : List ScopeRec) (c : List Value), lookupChain x ch = none →
        getValue x ⟨ch, s.globals ++ [⟨x, .implicit, v⟩], c⟩ =
          .ok (v, ⟨ch, s.globals ++ [⟨x, .implicit, v⟩], c⟩)) ∧
    (gotchaBlock s =
        .ok ((), ⟨s.chain, s.globals ++ [⟨"lastName", .implicit, .str "Lovelace"⟩],
          s.console⟩) ∧
      gotchaBlockSnippet s =
        .ok (.str "Lovelace",
          ⟨s.chain, s.globals ++ [⟨"lastName", .implicit, .str "Lovelace"⟩],
            s.console ++ [.str "Lovelace"]⟩)) := by
  obtain ⟨hx1, hx2⟩ := resolve_none hx
  obtain ⟨hl1, hl2⟩ := resolve_none hl
  have hnx := findBinding_append_new .implicit v hx2
  have hnl := findBinding_append_new .implicit (.str "Lovelace") hl2
  refine ⟨⟨putValue_unresolved v hx, hnx, ?_⟩, gotchaBlock_run hl, ?_⟩
  · intro ch c hc
    exact getValue_global c hc hnx
  · simp [gotchaBlockSnippet, bind_run, gotchaBlock_run hl,
      readAndLog_global s.console hl1 hnl]

/-- Witness for C3: `firstName = "Ada"` (line 81) assigned two scopes deep, a
block inside a function, and the block of lines 85 to 87 run from there. -/
theorem undeclared_assignment_is_global_witness :
    (putValue "firstName" (.str "Ada") ⟨[⟨.block, []⟩, ⟨.function, []⟩], [], []⟩ =
        .ok ((), ⟨[⟨.block, []⟩, ⟨.function, []⟩],
          [] ++ [⟨"firstName", .implicit, .str "Ada"⟩], []⟩) ∧
      findBinding "firstName" ([] ++ [⟨"firstName", .implicit, .str "Ada"⟩]) =
        some ⟨"firstName", .implicit, .str "Ada"⟩ ∧
      ∀ (ch : List ScopeRec) (c : List Value), lookupChain "firstName" ch = none →
        getValue "firstName" ⟨ch, [] ++ [⟨"firstName", .implicit, .str "Ada"⟩], c⟩ =
          .ok (.str "Ada", ⟨ch, [] ++ [⟨"firstName", .implicit, .str "Ada"⟩], c⟩)) ∧
    (gotchaBlock ⟨[⟨.block, []⟩, ⟨.function, []⟩], [], []⟩ =
        .ok ((), ⟨[⟨.block, []⟩, ⟨.function, []⟩],
          [] ++ [⟨"lastName", .implicit, .str "Lovelace"⟩], []⟩) ∧
      gotchaBlockSnippet ⟨[⟨.block, []⟩, ⟨.function, []⟩], [], []⟩ =
        .ok (.str "Lovelace",
          ⟨[⟨.block, []⟩, ⟨.function, []⟩],
            [] ++ [⟨"lastName", .implicit, .str "Lovelace"⟩],
            [] ++ [.str "Lovelace"]⟩)) :=
  undeclared_assignment_is_global ⟨[⟨.block, []⟩, ⟨.function, []⟩], [], []⟩ "firstName"
    (.str "Ada") rfl rfl

/-- C4: where `myFunc` resolves to the function of line 39, whose body only
declares `const myVar = 42`, and `myVar` is declared nowhere in scope, calling
`myFunc` any number of times (none included) returns `undefined` and changes
nothing, and evaluating `myVar * 2` afterwards yields no value: it throws
ReferenceError: myVar is not defined. -/
theorem function_scope_hides_myVar (s : ExecState) (n : Nat)
    (hf : (resolve "myFunc" s).map Binding.value = some (.fn .myFunc39))
    (hv : resolve "myVar" s = none) :
    callName "myFunc" s = .ok (.undefined, s) ∧
    runTimes n (callName "myFunc") s = .ok ((), s) ∧
    (runTimes n (callName "myFunc") >>= fun _ => myVarTimesTwo) s =
      .error (.referenceError "myVar") ∧
    (JSError.referenceError "myVar").describe = "ReferenceError: myVar is not defined" := by
  have hcall := callName_myFunc39 hf
  have hrun := runTimes_fixed hcall n
  refine ⟨hcall, hrun, ?_, by rfl⟩
  simp [bind_run, hrun, myVarTimesTwo_unresolved hv]

/-- Witness for C4: top level, right after the declaration of line 39, with
three calls made before the product is evaluated. -/
theorem function_scope_hides_myVar_witness :
    callName "myFunc" ⟨[], [⟨"myFunc", .function, .fn .myFunc39⟩], []⟩ =
      .ok (.undefined, ⟨[], [⟨"myFunc", .function, .fn .myFunc39⟩], []⟩) ∧
    runTimes 3 (callName "myFunc") ⟨[], [⟨"myFunc", .function, .fn .myFunc39⟩], []⟩ =
      .ok ((), ⟨[], [⟨"myFunc", .function, .fn .myFunc39⟩], []⟩) ∧
    (runTimes 3 (callName "myFunc") >>= fun _ => myVarTimesTwo)
        ⟨[], [⟨"myFunc", .function, .fn .myFunc39⟩], []⟩ =
      .error (.referenceError "myVar") ∧
    (JSError.referenceError "myVar").describe = "ReferenceError: myVar is not defined" :=
  function_scope_hides_myVar ⟨[], [⟨"myFunc", .function, .fn .myFunc39⟩], []⟩ 3 rfl rfl

/-- C5: where neither `myVar` nor `myOtherVar` is declared in scope, the block
of lines 57 to 61 runs to its end and leaves no binding behind, so that
reading `myVar` after it throws ReferenceError: myVar is not defined and
reading `myOtherVar` after it throws ReferenceError: myOtherVar is not
defined. -/
theorem const_let_block_scoped (s : ExecState)
    (hv : resolve "myVar" s = none) (ho : resolve "myOtherVar" s = none) :
    lexicalBlock s = .ok ((), s) ∧
    (lexicalBlock >>= fun _ => getValue "myVar") s = .error (.referenceError "myVar") ∧
    blockScopeSnippet s = .error (.referenceError "myVar") ∧
    (lexicalBlock >>= fun _ => getValue "myOtherVar") s =
      .error (.referenceError "myOtherVar") ∧
    blockScopeOtherSnippet s = .error (.referenceError "myOtherVar") ∧
    (JSError.referenceError "myVar").describe = "ReferenceError: myVar is not defined" ∧
    (JSError.referenceError "myOtherVar").describe =
      "ReferenceError: myOtherVar is not defined" := by
  refine ⟨lexicalBlock_run s, ?_, ?_, ?_, ?_, by rfl, by rfl⟩
  · simp [bind_run, lexicalBlock_run, getValue_unresolved hv]
  · simp [blockScopeSnippet, bind_run, lexicalBlock_run, readAndLog_unresolved hv]
  · simp [bind_run, lexicalBlock_run, getValue_unresolved ho]
  · simp [blockScopeOtherSnippet, bind_run, lexicalBlock_run, readAndLog_unresolved ho]

/-- Witness for C5: the block run from the state in which a script starts. -/
theorem const_let_block_scoped_witness :
    lexicalBlock initial = .ok ((), initial) ∧
    (lexicalBlock >>= fun _ => getValue "myVar") initial = .error (.referenceError "myVar") ∧
    blockScopeSnippet initial = .error (.referenceError "myVar") ∧
    (lexicalBlock >>= fun _ => getValue "myOtherVar") initial =
      .error (.referenceError "myOtherVar") ∧
    blockScopeOtherSnippet initial = .error (.referenceError "myOtherVar") ∧
    (JSError.referenceError "myVar").describe = "ReferenceError: myVar is not defined" ∧
    (JSError.referenceError "myOtherVar").describe =
      "ReferenceError: myOtherVar is not defined" :=
  const_let_block_scoped initial rfl rfl

end ScopeJs
